import Mathlib

/-!
Verification development for `example/filesystem_event_monitor.hpp`
(class `FilesystemEventMonitor`).

The C++ class watches one file and its parent directory through inotify.
We model it shallowly:

* The inotify byte stream delivered to `readEvents` is a `List Nat` of
  byte values; `bytesTransferred` counts the valid bytes.  `struct
  inotify_event` is 16 bytes: `wd` (int32), `mask` (uint32), `cookie`
  (uint32), `len` (uint32), little-endian, followed by `len` name bytes.
* The members `inotifyFd`, `dirWatchDesc`, `fileWatchDesc` are `Int`
  with the source's `-1` sentinel.
* The OS is modelled by an oracle list `osResults` holding the results
  of the successive `inotify_add_watch` calls, by the multisets
  `dirRegs` / `fileRegs` of live kernel watch registrations for the two
  paths, and by a trace `calls` of the registration/deregistration
  syscalls that were issued.  `inotify_rm_watch` always succeeds.
* The two `std::cout` event narrations in `readEvents` are the event
  dispatches; they are recorded in the `events` list.  The other log
  lines carry no event data and are not modelled.
* The `while` loop of `readEvents` is written with explicit fuel so the
  definition is executable; `readEventsAux_fuel_congr` proves that any
  fuel larger than the remaining byte count gives the same result, and
  `readEvents` passes `bytesTransferred + 1`, which is always enough
  because every iteration consumes at least 16 bytes.
-/

/-! ## Event mask constants from `sys/inotify.h` -/

def IN_ACCESS : Nat := 1
def IN_MODIFY : Nat := 2
def IN_ATTRIB : Nat := 4
def IN_CLOSE_WRITE : Nat := 8
def IN_CLOSE_NOWRITE : Nat := 16
def IN_OPEN : Nat := 32
def IN_MOVED_FROM : Nat := 64
def IN_MOVED_TO : Nat := 128
def IN_CREATE : Nat := 256
def IN_DELETE : Nat := 512
def IN_DELETE_SELF : Nat := 1024
def IN_MOVE_SELF : Nat := 2048

/-- `constexpr const size_t iEventSize = sizeof(inotify_event)` = 16. -/
def iEventSize : Nat := 16

/-! ## `FilesystemEventMonitor::getEventString`

The C++ switch on `event.mask` (the parameter is misleadingly named
`WatchDescriptor` in the source); every case returns directly, the
default falls through to `return ""`.  A switch over distinct case
labels is an equality test chain in source order. -/

def getEventString (mask : Nat) : String :=
  if mask = IN_ACCESS then "IN_ACCESS - File was accessed."
  else if mask = IN_ATTRIB then "IN_ATTRIB - Metadata changed."
  else if mask = IN_CLOSE_WRITE then
    "IN_CLOSE_WRITE - File opened for writing was closed."
  else if mask = IN_CLOSE_NOWRITE then
    "IN_CLOSE_NOWRITE - File or directory not opened for writing was closed."
  else if mask = IN_CREATE then
    "IN_CREATE - File/directory created in watched directory."
  else if mask = IN_DELETE then
    "IN_DELETE - File/directory deleted from watched directory."
  else if mask = IN_DELETE_SELF then
    "IN_DELETE_SELF - Watched file/directory was itself deleted."
  else if mask = IN_MODIFY then "IN_MODIFY - File was modified."
  else if mask = IN_MOVE_SELF then
    "IN_MOVE_SELF -  Watched file/directory was itself moved."
  else if mask = IN_MOVED_FROM then
    "IN_MOVED_FROM - Generated for the directory containing the old filename when a file is renamed."
  else if mask = IN_MOVED_TO then
    "IN_MOVED_TO - Generated for the directory containing the new filename when a file is renamed."
  else if mask = IN_OPEN then "IN_OPEN - File or directory was opened."
  else ""

/-- The twelve event-type masks the switch recognises, in switch order. -/
def knownEventMasks : List Nat :=
  [IN_ACCESS, IN_ATTRIB, IN_CLOSE_WRITE, IN_CLOSE_NOWRITE, IN_CREATE,
   IN_DELETE, IN_DELETE_SELF, IN_MODIFY, IN_MOVE_SELF, IN_MOVED_FROM,
   IN_MOVED_TO, IN_OPEN]

/-! ## Monitor state -/

/-- Which path an `inotify_add_watch` call was issued for. -/
inductive WPath where
  | parentDir : WPath
  | file : WPath
deriving DecidableEq

/-- One OS watch-registration syscall issued by the monitor:
`inotify_add_watch` with its returned descriptor, or
`inotify_rm_watch` on a descriptor. -/
inductive OsCall where
  | addWatch : WPath → Int → OsCall
  | rmWatch : Int → OsCall
deriving DecidableEq

/-- A dispatched event: the `std::cout` narration in `readEvents`.
Directory-scoped dispatches carry the extracted filename and the mask;
file-scoped dispatches carry the mask.  (The printed description is
`getEventString` of the mask.) -/
inductive SemEvent where
  | dirEvent : List Nat → Nat → SemEvent
  | fileEvent : Nat → SemEvent
deriving DecidableEq

/-- The monitor's mutable members plus the modelled environment:
`osResults` is the oracle of pending `inotify_add_watch` results,
`dirRegs`/`fileRegs` are the kernel's live watch registrations for the
parent directory and for the file, `calls` is the syscall trace and
`events` the dispatch trace. -/
structure MonState where
  inotifyFd : Int
  dirWatchDesc : Int
  fileWatchDesc : Int
  osResults : List Int
  dirRegs : List Int
  fileRegs : List Int
  calls : List OsCall
  events : List SemEvent
deriving DecidableEq

/-! ## Watch add/remove operations -/

/-- `FilesystemEventMonitor::addWatchOnDir`: `dirWatchDesc =
inotify_add_watch(...)`; returns `false` iff the result is `-1`.
On success the kernel gains a registration for the parent directory. -/
def addWatchOnDir (s : MonState) : MonState × Bool :=
  let r := s.osResults.headD (-1)
  let s' : MonState :=
    { s with
      osResults := s.osResults.tail
      dirWatchDesc := r
      dirRegs := if r = -1 then s.dirRegs else r :: s.dirRegs
      calls := s.calls ++ [OsCall.addWatch WPath.parentDir r] }
  if r = -1 then (s', false) else (s', true)

/-- `FilesystemEventMonitor::rmWatchOnDir`: if `dirWatchDesc != -1`,
call `inotify_rm_watch` on it and reset the member to `-1`. -/
def rmWatchOnDir (s : MonState) : MonState :=
  if s.dirWatchDesc ≠ -1 then
    { s with
      dirRegs := s.dirRegs.erase s.dirWatchDesc
      calls := s.calls ++ [OsCall.rmWatch s.dirWatchDesc]
      dirWatchDesc := -1 }
  else s

/-- `FilesystemEventMonitor::addWatchOnFile`: `fileWatchDesc =
inotify_add_watch(...)` (the member is assigned the result even when it
is `-1`); returns `false` iff the result is `-1`. -/
def addWatchOnFile (s : MonState) : MonState × Bool :=
  let r := s.osResults.headD (-1)
  let s' : MonState :=
    { s with
      osResults := s.osResults.tail
      fileWatchDesc := r
      fileRegs := if r = -1 then s.fileRegs else r :: s.fileRegs
      calls := s.calls ++ [OsCall.addWatch WPath.file r] }
  if r = -1 then (s', false) else (s', true)

/-- `FilesystemEventMonitor::rmWatchOnFile`: if `fileWatchDesc != -1`,
call `inotify_rm_watch` on it and reset the member to `-1`. -/
def rmWatchOnFile (s : MonState) : MonState :=
  if s.fileWatchDesc ≠ -1 then
    { s with
      fileRegs := s.fileRegs.erase s.fileWatchDesc
      calls := s.calls ++ [OsCall.rmWatch s.fileWatchDesc]
      fileWatchDesc := -1 }
  else s

/-- The `std::cout << filename << " inside " << ... << getEventString(...)`
dispatch of a directory-scoped record. -/
def dispatchDir (filename : List Nat) (mask : Nat) (s : MonState) : MonState :=
  { s with events := s.events ++ [SemEvent.dirEvent filename mask] }

/-- The `std::cout << pathname.filename() << ... << getEventString(...)`
dispatch of a file-scoped record. -/
def dispatchFile (mask : Nat) (s : MonState) : MonState :=
  { s with events := s.events ++ [SemEvent.fileEvent mask] }

/-! ## Byte-level decoding -/

/-- `std::string filename(&readBuffer[index + iEventSize])`: the
`std::string` constructor from `const char*` copies bytes up to (not
including) the first NUL byte, with no truncation at `event.len`. -/
def extractName (l : List Nat) : List Nat :=
  l.takeWhile (fun b => b != 0)

/-- Little-endian 32-bit value from four bytes. -/
def le32 (b0 b1 b2 b3 : Nat) : Nat :=
  b0 + 256 * b1 + 65536 * b2 + 16777216 * b3

/-- Reinterpret a 32-bit unsigned value as the signed `int` it would be
under two's complement (the type of `inotify_event::wd`). -/
def toInt32 (n : Nat) : Int :=
  if n < 2147483648 then (n : Int) else (n : Int) - 4294967296

/-- The 32-bit two's-complement bit pattern of an `int` value. -/
def wdBits (w : Int) : Nat := (w % 4294967296).toNat

/-- The 32-bit little-endian value starting at the head of `l`
(missing bytes read as 0; the monitor only decodes headers that lie
within the valid bytes, see `readEventsAux`). -/
def decodeU32 (l : List Nat) : Nat :=
  le32 (l.getD 0 0) (l.getD 1 0) (l.getD 2 0) (l.getD 3 0)

/-- `std::memcpy(&event, &readBuffer[index], iEventSize)` followed by
field access: yields `(event.wd, event.mask, event.len)` from the 16
header bytes at the head of `l` (`cookie`, bytes 8..11, is unused by
`readEvents`). -/
def decodeHeader (l : List Nat) : Int × Nat × Nat :=
  (toInt32 (decodeU32 l), decodeU32 (l.drop 4), decodeU32 (l.drop 12))

/-! ## `FilesystemEventMonitor::readEvents` -/

/-- The body of the `while ((index + iEventSize) <= bytesTransferred)`
loop of `readEvents`, one fuel unit per iteration.  `buf` is the full
backing `readBuffer` array (which may extend past `bytesTransferred`
with stale bytes — exactly as the `static std::array<char, 1024>`
does), `fileName` is `pathname.filename()`. -/
def readEventsAux (buf : List Nat) (bytesTransferred : Nat)
    (fileName : List Nat) : Nat → Nat → MonState → MonState
  | 0, _, s => s
  | fuel + 1, index, s =>
    if index + iEventSize ≤ bytesTransferred then
      let tail := buf.drop index
      let hdr := decodeHeader tail
      if hdr.1 = s.dirWatchDesc then
        if hdr.2.2 = 0 ∨ index + iEventSize + hdr.2.2 > bytesTransferred then
          readEventsAux buf bytesTransferred fileName fuel
            (index + (iEventSize + hdr.2.2)) s
        else
          let filename := extractName (tail.drop iEventSize)
          if filename ≠ fileName then
            readEventsAux buf bytesTransferred fileName fuel
              (index + (iEventSize + hdr.2.2)) s
          else
            let s1 := dispatchDir filename hdr.2.1 s
            if hdr.2.1 = IN_CREATE then
              let s2 := rmWatchOnFile s1
              let p := addWatchOnFile s2
              if p.2 then
                readEventsAux buf bytesTransferred fileName fuel
                  (index + (iEventSize + hdr.2.2)) p.1
              else p.1
            else if hdr.2.1 = IN_DELETE ∨ hdr.2.1 = IN_MOVED_TO then
              readEventsAux buf bytesTransferred fileName fuel
                (index + (iEventSize + hdr.2.2)) (rmWatchOnFile s1)
            else
              readEventsAux buf bytesTransferred fileName fuel
                (index + (iEventSize + hdr.2.2)) s1
      else if hdr.1 = s.fileWatchDesc then
        readEventsAux buf bytesTransferred fileName fuel
          (index + (iEventSize + hdr.2.2)) (dispatchFile hdr.2.1 s)
      else
        readEventsAux buf bytesTransferred fileName fuel
          (index + (iEventSize + hdr.2.2)) s
    else s

/-- `FilesysteamEventMonitor::readEvents(readBuffer, bytesTransferred)`:
run the loop from `index = 0`.  One fuel unit more than
`bytesTransferred` is always enough (`readEventsAux_fuel_congr`). -/
def readEvents (buf : List Nat) (bytesTransferred : Nat)
    (fileName : List Nat) (s : MonState) : MonState :=
  readEventsAux buf bytesTransferred fileName (bytesTransferred + 1) 0 s

/-! ## `monitorFilesystemEvent` and construction/destruction -/

/-- One invocation of the completion handler registered by
`monitorFilesystemEvent`.  On error it logs and returns without
re-arming; otherwise it runs `readEvents` on the delivered bytes and
then calls `monitorFilesystemEvent()` again unconditionally.  The
returned `Bool` is `true` iff `monitorFilesystemEvent()` is invoked
again, i.e. iff the next `async_read_some` is issued. -/
def callbackStep (ec : Bool) (buf : List Nat) (bytesTransferred : Nat)
    (fileName : List Nat) (s : MonState) : MonState × Bool :=
  if ec then (s, false)
  else (readEvents buf bytesTransferred fileName s, true)

/-- Result of running the constructor: the member state, whether the
monitor reached the point of `monitorFilesystemEvent()` (Running), and
how many reads were issued (`async_read_some` calls). -/
structure ConstructResult where
  state : MonState
  running : Bool
  readsIssued : Nat
deriving DecidableEq

/-- `FilesystemEventMonitor::FilesystemEventMonitor`: members start at
`-1`; `inotifyConn.emplace(ioc)` always engages the optional, so the
`!inotifyConn` early return never fires; `inotify_init1` failure
(modelled by `fd = -1`) returns early; `addWatchOnDir()` failure
returns early; `addWatchOnFile()` failure is ignored; then the
connection is assigned and `monitorFilesystemEvent()` issues the first
read. -/
def constructMonitor (fd : Int) (osResults : List Int) : ConstructResult :=
  let s : MonState := ⟨-1, -1, -1, osResults, [], [], [], []⟩
  if fd = -1 then ⟨s, false, 0⟩
  else
    let s : MonState := { s with inotifyFd := fd }
    let p := addWatchOnDir s
    if p.2 then
      let s2 := (addWatchOnFile p.1).1
      ⟨s2, true, 1⟩
    else ⟨p.1, false, 0⟩

/-- `FilesystemEventMonitor::~FilesystemEventMonitor`:
`rmWatchOnDir(); rmWatchOnFile(); close(inotifyFd);`. -/
def destructMonitor (s : MonState) : MonState :=
  rmWatchOnFile (rmWatchOnDir s)

/-! ## Record-level view

A `Rec` is one raw inotify record; `encodeRecord` lays it out exactly
as the kernel does (16-byte header, then the `len = name.length` name
bytes, NUL padding included in `name`). -/

structure Rec where
  wd : Int
  mask : Nat
  cookie : Nat
  name : List Nat
deriving DecidableEq

def enc32 (n : Nat) : List Nat :=
  [n % 256, n / 256 % 256, n / 65536 % 256, n / 16777216 % 256]

def encodeRecord (r : Rec) : List Nat :=
  enc32 (wdBits r.wd) ++ enc32 r.mask ++ enc32 r.cookie ++
    enc32 r.name.length ++ r.name

def encodeList : List Rec → List Nat
  | [] => []
  | r :: rs => encodeRecord r ++ encodeList rs

/-- Well-formed raw record: fields in 32-bit range, bytes are bytes,
and — as the kernel guarantees — a nonempty name field is
NUL-terminated within its `len` bytes. -/
def WF (r : Rec) : Prop :=
  -2147483648 ≤ r.wd ∧ r.wd < 2147483648 ∧ r.mask < 4294967296 ∧
    r.cookie < 4294967296 ∧ r.name.length < 4294967296 ∧
    (∀ b ∈ r.name, b < 256) ∧ (r.name ≠ [] → (0 : Nat) ∈ r.name)

instance (r : Rec) : Decidable (WF r) := by
  unfold WF; infer_instance

/-- The spec's name extraction: "a null-terminated string truncated at
`len` bytes", reading only the `len` bytes of the name field. -/
def specName (len : Nat) (l : List Nat) : List Nat :=
  (l.take len).takeWhile (fun b => b != 0)

/-- How one complete, well-formed record is processed by the loop body
of `readEvents` (the guard `index + iEventSize + len > bytesTransferred`
cannot fire for a complete record).  Returns the new state and whether
the loop continues (`false` exactly on the early `return` after a
failed `addWatchOnFile`). -/
def processRecord (fileName : List Nat) (r : Rec) (s : MonState) :
    MonState × Bool :=
  if r.wd = s.dirWatchDesc then
    if r.name.length = 0 then (s, true)
    else if extractName r.name ≠ fileName then (s, true)
    else
      let s1 := dispatchDir (extractName r.name) r.mask s
      if r.mask = IN_CREATE then
        let s2 := rmWatchOnFile s1
        addWatchOnFile s2
      else if r.mask = IN_DELETE ∨ r.mask = IN_MOVED_TO then
        (rmWatchOnFile s1, true)
      else (s1, true)
  else if r.wd = s.fileWatchDesc then (dispatchFile r.mask s, true)
  else (s, true)

/-- Process a batch of complete records in order, stopping early when
`processRecord` reports the early return. -/
def processAll (fileName : List Nat) : List Rec → MonState → MonState × Bool
  | [], s => (s, true)
  | r :: rs, s =>
    let p := processRecord fileName r s
    if p.2 then processAll fileName rs p.1 else p

/-- What `readEvents` does with a truncated trailing fragment, given
whether a full 16-byte header is present and the decoded header: a
header-less fragment ends the loop; a directory-scoped or unknown
header is skipped; a header matching the live file watch descriptor is
dispatched as a file-scoped event. -/
def handleFrag (hasHdr : Bool) (hdr : Int × Nat × Nat) (s : MonState) :
    MonState :=
  if hasHdr then
    if hdr.1 = s.dirWatchDesc then s
    else if hdr.1 = s.fileWatchDesc then dispatchFile hdr.2.1 s
    else s
  else s

/-- Invariant I1: at most one live kernel registration per logical
watch, mirrored by the descriptor member. -/
def WatchInv (s : MonState) : Prop :=
  (s.fileWatchDesc = -1 → s.fileRegs = []) ∧
    (s.fileWatchDesc ≠ -1 → s.fileRegs = [s.fileWatchDesc]) ∧
    (s.dirWatchDesc = -1 → s.dirRegs = []) ∧
    (s.dirWatchDesc ≠ -1 → s.dirRegs = [s.dirWatchDesc])

instance (s : MonState) : Decidable (WatchInv s) := by
  unfold WatchInv; infer_instance

/-! ## Helper lemmas about decoding an encoded record -/

lemma le32_enc32 (n : Nat) (h : n < 4294967296) :
    le32 (n % 256) (n / 256 % 256) (n / 65536 % 256) (n / 16777216 % 256)
      = n := by
  unfold le32; omega

lemma wdBits_lt (w : Int) : wdBits w < 4294967296 := by
  unfold wdBits; omega

lemma toInt32_wdBits (w : Int) (h1 : -2147483648 ≤ w)
    (h2 : w < 2147483648) : toInt32 (wdBits w) = w := by
  unfold toInt32 wdBits
  split <;> omega

lemma decodeHeader_cons (b0 b1 b2 b3 b4 b5 b6 b7 b8 b9 b10 b11 b12 b13 b14
    b15 : Nat) (rest : List Nat) :
    decodeHeader (b0 :: b1 :: b2 :: b3 :: b4 :: b5 :: b6 :: b7 :: b8 :: b9 ::
        b10 :: b11 :: b12 :: b13 :: b14 :: b15 :: rest) =
      (toInt32 (le32 b0 b1 b2 b3), le32 b4 b5 b6 b7, le32 b12 b13 b14 b15) :=
  rfl

lemma encodeRecord_cons (r : Rec) (rest : List Nat) :
    encodeRecord r ++ rest =
      wdBits r.wd % 256 :: wdBits r.wd / 256 % 256 ::
      wdBits r.wd / 65536 % 256 :: wdBits r.wd / 16777216 % 256 ::
      r.mask % 256 :: r.mask / 256 % 256 ::
      r.mask / 65536 % 256 :: r.mask / 16777216 % 256 ::
      r.cookie % 256 :: r.cookie / 256 % 256 ::
      r.cookie / 65536 % 256 :: r.cookie / 16777216 % 256 ::
      r.name.length % 256 :: r.name.length / 256 % 256 ::
      r.name.length / 65536 % 256 :: r.name.length / 16777216 % 256 ::
      (r.name ++ rest) := by
  simp [encodeRecord, enc32]

lemma decodeHeader_encodeRecord (r : Rec) (rest : List Nat) (h : WF r) :
    decodeHeader (encodeRecord r ++ rest) = (r.wd, r.mask, r.name.length) := by
  obtain ⟨h1, h2, h3, h4, h5, _, _⟩ := h
  rw [encodeRecord_cons, decodeHeader_cons,
    le32_enc32 _ (wdBits_lt r.wd), le32_enc32 _ h3, le32_enc32 _ h5,
    toInt32_wdBits _ h1 h2]

lemma encodeRecord_length (r : Rec) :
    (encodeRecord r).length = 16 + r.name.length := by
  simp [encodeRecord, enc32]
  omega

lemma encodeRecord_drop16 (r : Rec) (rest : List Nat) :
    (encodeRecord r ++ rest).drop 16 = r.name ++ rest := by
  rw [encodeRecord_cons]
  rfl

lemma takeWhile_ne_append {l l' : List Nat} (h : (0 : Nat) ∈ l) :
    (l ++ l').takeWhile (fun b => b != 0) = l.takeWhile (fun b => b != 0) := by
  induction l with
  | nil => cases h
  | cons a t ih =>
    by_cases ha : a = 0
    · subst ha
      simp [List.takeWhile_cons]
    · rcases List.mem_cons.mp h with h0 | h0
      · exact absurd h0.symm ha
      · simp [List.takeWhile_cons, ha, ih h0]

lemma extractName_append {l l' : List Nat} (h : (0 : Nat) ∈ l) :
    extractName (l ++ l') = extractName l := by
  unfold extractName
  exact takeWhile_ne_append h

/-! ## Loop lemmas -/

lemma readEventsAux_stop (buf : List Nat) (bytes : Nat) (fn : List Nat)
    (fuel index : Nat) (s : MonState) (h : bytes < index + 16) :
    readEventsAux buf bytes fn fuel index s = s := by
  cases fuel with
  | zero => rfl
  | succ f =>
    simp only [readEventsAux, iEventSize]
    rw [if_neg (by omega)]

lemma readEventsAux_fuel_congr (buf : List Nat) (bytes : Nat)
    (fn : List Nat) :
    ∀ f1 f2 index s, bytes - index < f1 → bytes - index < f2 →
      readEventsAux buf bytes fn f1 index s =
        readEventsAux buf bytes fn f2 index s := by
  intro f1
  induction f1 with
  | zero => intro f2 index s h1 _; omega
  | succ f ih =>
    intro f2 index s h1 h2
    cases f2 with
    | zero => omega
    | succ g =>
      by_cases hg : index + iEventSize ≤ bytes
      · simp only [readEventsAux]
        rw [if_pos hg, if_pos hg]
        simp only [iEventSize] at hg h1 h2 ⊢
        split_ifs <;>
          first
          | rfl
          | exact ih g _ _ (by omega) (by omega)
      · simp only [readEventsAux]
        rw [if_neg hg, if_neg hg]

lemma readEventsAux_step (buf : List Nat) (bytes : Nat) (fn : List Nat)
    (fuel index : Nat) (s : MonState) (r : Rec) (rest : List Nat)
    (hdrop : buf.drop index = encodeRecord r ++ rest)
    (hwf : WF r)
    (hbound : index + 16 + r.name.length ≤ bytes) :
    readEventsAux buf bytes fn (fuel + 1) index s =
      (let p := processRecord fn r s
       if p.2 then
         readEventsAux buf bytes fn fuel (index + (16 + r.name.length)) p.1
       else p.1) := by
  have hdec := decodeHeader_encodeRecord r rest hwf
  simp only [readEventsAux, iEventSize]
  rw [if_pos (by omega), hdrop, hdec, encodeRecord_drop16]
  simp only [processRecord]
  by_cases hwd : r.wd = s.dirWatchDesc
  · rw [if_pos hwd, if_pos hwd]
    by_cases hlen : r.name.length = 0
    · rw [if_pos (Or.inl hlen), if_pos hlen]
      simp
    · have hname : r.name ≠ [] := by
        intro hnil; exact hlen (by simp [hnil])
      have hnul : (0 : Nat) ∈ r.name := hwf.2.2.2.2.2.2 hname
      rw [if_neg (by push_neg; exact ⟨hlen, by omega⟩),
        extractName_append hnul]
      by_cases hfn : extractName r.name ≠ fn
      · rw [if_pos hfn, if_pos hfn]
        simp [hlen]
      · rw [if_neg hfn, if_neg hfn]
        by_cases hm : r.mask = IN_CREATE
        · rw [if_pos hm, if_pos hm]
          simp [hlen]
        · rw [if_neg hm, if_neg hm]
          by_cases hdm : r.mask = IN_DELETE ∨ r.mask = IN_MOVED_TO
          · rw [if_pos hdm, if_pos hdm]
            simp [hlen]
          · rw [if_neg hdm, if_neg hdm]
            simp [hlen]
  · rw [if_neg hwd, if_neg hwd]
    by_cases hf : r.wd = s.fileWatchDesc
    · rw [if_pos hf, if_pos hf]
      simp
    · rw [if_neg hf, if_neg hf]
      simp

lemma drop_encodeRecord_append (r : Rec) (x : List Nat) :
    (encodeRecord r ++ x).drop (16 + r.name.length) = x := by
  conv_lhs => rw [show 16 + r.name.length = (encodeRecord r).length from
    (encodeRecord_length r).symm]
  exact List.drop_left _ _

lemma readEventsAux_decomposition (buf : List Nat) (bytes : Nat)
    (fn frag stale : List Nat)
    (hfragOK : frag.length < 16 ∨
      (16 ≤ frag.length ∧
        frag.length < 16 + (decodeHeader (frag ++ stale)).2.2)) :
    ∀ (rs : List Rec) (index fuel : Nat) (s : MonState),
      (∀ r ∈ rs, WF r) →
      buf.drop index = encodeList rs ++ (frag ++ stale) →
      bytes = index + (encodeList rs).length + frag.length →
      bytes - index < fuel →
      readEventsAux buf bytes fn fuel index s =
        (let p := processAll fn rs s
         if p.2 then
           handleFrag (decide (16 ≤ frag.length))
             (decodeHeader (frag ++ stale)) p.1
         else p.1) := by
  intro rs
  induction rs with
  | nil =>
    intro index fuel s _ hdrop hbytes hfuel
    simp only [encodeList, List.nil_append, List.length_nil] at hdrop hbytes
    rcases hfragOK with hlt | ⟨hge, htrunc⟩
    · have hstop : bytes < index + 16 := by omega
      rw [readEventsAux_stop buf bytes fn fuel index s hstop]
      simp only [processAll, handleFrag]
      rw [if_pos trivial, if_neg (by simp; omega)]
    · cases fuel with
      | zero => omega
      | succ f =>
        have hstop : bytes <
            (index + (16 + (decodeHeader (frag ++ stale)).2.2)) + 16 := by
          omega
        have hguard : (decodeHeader (frag ++ stale)).2.2 = 0 ∨
            index + 16 + (decodeHeader (frag ++ stale)).2.2 > bytes :=
          Or.inr (by omega)
        simp only [readEventsAux, iEventSize]
        rw [if_pos (by omega : index + 16 ≤ bytes), hdrop]
        simp only [processAll, handleFrag]
        rw [if_pos trivial]
        by_cases hwd : (decodeHeader (frag ++ stale)).1 = s.dirWatchDesc
        · rw [if_pos hwd, if_pos hguard,
            readEventsAux_stop buf bytes fn f _ s hstop]
          simp [hge, hwd]
        · rw [if_neg hwd]
          by_cases hfw : (decodeHeader (frag ++ stale)).1 = s.fileWatchDesc
          · rw [if_pos hfw,
              readEventsAux_stop buf bytes fn f _ _ hstop,
              if_pos (decide_eq_true hge)]
            have hne : ¬(s.fileWatchDesc = s.dirWatchDesc) := fun h =>
              hwd (hfw.trans h)
            simp [hwd, hfw, hne]
          · rw [if_neg hfw,
              readEventsAux_stop buf bytes fn f _ s hstop]
            simp [hge, hwd, hfw]
  | cons r rs' ih =>
    intro index fuel s hwf hdrop hbytes hfuel
    have hwfr : WF r := hwf r (List.mem_cons_self r rs')
    have hencl : (encodeList (r :: rs')).length =
        (16 + r.name.length) + (encodeList rs').length := by
      simp [encodeList, encodeRecord_length]
    rw [hencl] at hbytes
    have hdrop' : buf.drop index =
        encodeRecord r ++ (encodeList rs' ++ (frag ++ stale)) := by
      rw [hdrop]; simp [encodeList]
    cases fuel with
    | zero => omega
    | succ f =>
      rw [readEventsAux_step buf bytes fn f index s r _ hdrop' hwfr
        (by omega)]
      simp only [processAll]
      by_cases hp : (processRecord fn r s).2
      · rw [if_pos hp, if_pos hp]
        have hdropn : buf.drop (index + (16 + r.name.length)) =
            encodeList rs' ++ (frag ++ stale) := by
          have h2 : (buf.drop index).drop (16 + r.name.length) =
              encodeList rs' ++ (frag ++ stale) := by
            rw [hdrop', drop_encodeRecord_append]
          rw [List.drop_drop] at h2
          exact h2
        rw [ih (index + (16 + r.name.length)) f (processRecord fn r s).1
          (fun q hq => hwf q (List.mem_cons_of_mem r hq)) hdropn
          (by omega) (by omega)]
      · rw [if_neg hp, if_neg hp, if_neg hp]

lemma readEvents_decomposition (fn frag stale : List Nat) (rs : List Rec)
    (s : MonState) (hwf : ∀ r ∈ rs, WF r)
    (hfragOK : frag.length < 16 ∨
      (16 ≤ frag.length ∧
        frag.length < 16 + (decodeHeader (frag ++ stale)).2.2)) :
    readEvents (encodeList rs ++ (frag ++ stale))
        ((encodeList rs).length + frag.length) fn s =
      (let p := processAll fn rs s
       if p.2 then
         handleFrag (decide (16 ≤ frag.length))
           (decodeHeader (frag ++ stale)) p.1
       else p.1) := by
  unfold readEvents
  exact readEventsAux_decomposition _ _ fn frag stale hfragOK rs 0 _ s hwf
    (by simp) (by omega) (by omega)

/-! ## Concrete scenario data used by counterexamples and witnesses -/

/-- Target filename `pathname.filename()` as bytes: "f". -/
def fnC : List Nat := [102]

/-- A monitor state with both watches live: `inotifyFd = 3`,
`dirWatchDesc = 1`, `fileWatchDesc = 5`, matching kernel registrations,
no pending oracle results, empty traces. -/
def sLive : MonState := ⟨3, 1, 5, [], [1], [5], [], []⟩

/-- Like `sLive` but the next `inotify_add_watch` call will fail. -/
def sFail : MonState := ⟨3, 1, 5, [-1], [1], [5], [], []⟩

/-- Like `sLive` but the next `inotify_add_watch` call returns 7. -/
def sOk : MonState := ⟨3, 1, 5, [7], [1], [5], [], []⟩

/-- One directory-scoped record: `wd = 1`, `mask = IN_MOVED_TO` (0x80),
`cookie = 0`, `len = 2`, name "f\x00". -/
def movedToBuf : List Nat :=
  [1, 0, 0, 0, 128, 0, 0, 0, 0, 0, 0, 0, 2, 0, 0, 0, 102, 0]

/-- Same record but with `mask = IN_MOVED_FROM` (0x40). -/
def movedFromBuf : List Nat :=
  [1, 0, 0, 0, 64, 0, 0, 0, 0, 0, 0, 0, 2, 0, 0, 0, 102, 0]

/-- Same record but with `mask = IN_CREATE` (0x100). -/
def createBuf : List Nat :=
  [1, 0, 0, 0, 0, 1, 0, 0, 0, 0, 0, 0, 2, 0, 0, 0, 102, 0]

/-- Record "f" created in the watched directory: `wd = 1`,
`mask = IN_CREATE`, `len = 2`, name "f\x00". -/
def recCreate : Rec := ⟨1, 256, 0, [102, 0]⟩

lemma processRecord_create (r : Rec) (fn : List Nat) (s : MonState)
    (hwd : r.wd = s.dirWatchDesc) (hne : r.name ≠ [])
    (hfn : extractName r.name = fn) (hm : r.mask = IN_CREATE) :
    processRecord fn r s =
      addWatchOnFile (rmWatchOnFile (dispatchDir fn r.mask s)) := by
  simp only [processRecord]
  rw [if_pos hwd, if_neg (fun h => hne (List.length_eq_zero.mp h)),
    if_neg (fun h => h hfn), hfn, if_pos hm]

lemma osResults_rm_dispatch (fn : List Nat) (mask : Nat) (s : MonState) :
    (rmWatchOnFile (dispatchDir fn mask s)).osResults = s.osResults := by
  unfold rmWatchOnFile dispatchDir
  split <;> rfl

lemma addWatchOnFile_fail_snd (q : MonState)
    (h : q.osResults.headD (-1) = -1) : (addWatchOnFile q).2 = false := by
  simp only [addWatchOnFile, h]
  rfl

lemma addWatchOnFile_ok_snd (q : MonState)
    (h : q.osResults.headD (-1) ≠ -1) : (addWatchOnFile q).2 = true := by
  simp only [addWatchOnFile]
  rw [if_neg h]

/-- Claim C9: the event-description classifier is a pure total function
over event masks: it returns a non-empty description exactly on the
twelve known single-bit event-type masks, and the empty description on
every other mask value, never failing. -/
theorem event_description_total (m : Nat) :
    getEventString m ≠ "" ↔ m ∈ knownEventMasks := by
  constructor
  · intro h
    by_contra hmem
    apply h
    simp only [knownEventMasks, List.mem_cons, List.not_mem_nil, or_false,
      not_or] at hmem
    obtain ⟨n1, n2, n3, n4, n5, n6, n7, n8, n9, n10, n11, n12⟩ := hmem
    simp only [getEventString, if_neg n1, if_neg n2, if_neg n3, if_neg n4,
      if_neg n5, if_neg n6, if_neg n7, if_neg n8, if_neg n9, if_neg n10,
      if_neg n11, if_neg n12]
  · intro hmem
    simp only [knownEventMasks, List.mem_cons, List.not_mem_nil,
      or_false] at hmem
    rcases hmem with h | h | h | h | h | h | h | h | h | h | h | h <;>
      subst h <;> decide

/-- Witness for C9 at concrete masks: `IN_MODIFY` has a description. -/
theorem event_description_total_witness : getEventString 2 ≠ "" :=
  (event_description_total 2).mpr (by decide)

/-- Claim C1 (evaluation at the failing inputs): on a directory-scoped
`IN_MOVED_TO` ("moved-in") record for the target filename the code
DESTROYS the file watch (like a delete), and on an `IN_MOVED_FROM`
("moved-out") record it performs no watch mutation at all — the
opposite of re-arming on moved-in and destroying on moved-out. -/
theorem moved_records_divergence :
    (readEvents movedToBuf 18 fnC sLive).fileWatchDesc = -1 ∧
    (readEvents movedToBuf 18 fnC sLive).fileRegs = [] ∧
    (readEvents movedToBuf 18 fnC sLive).calls = [OsCall.rmWatch 5] ∧
    (readEvents movedToBuf 18 fnC sLive).events =
      [SemEvent.dirEvent fnC IN_MOVED_TO] ∧
    (readEvents movedFromBuf 18 fnC sLive).fileWatchDesc = 5 ∧
    (readEvents movedFromBuf 18 fnC sLive).fileRegs = [5] ∧
    (readEvents movedFromBuf 18 fnC sLive).calls = [] := by
  decide

/-- Counterexample to claim C2 as stated: with both watches live and an
`inotify_add_watch` oracle that fails, the completion handler processes
a create record for the target filename, the re-registration fails
(`fileWatchDesc` ends `-1`, the failed `addWatch` call is traced) — yet
the handler still re-arms the loop: the second component is `true`,
i.e. the next read IS issued. -/
theorem stopped_loop_cex :
    (callbackStep false createBuf 18 fnC sFail).2 = true ∧
    (callbackStep false createBuf 18 fnC sFail).1.calls =
      [OsCall.rmWatch 5, OsCall.addWatch WPath.file (-1)] ∧
    (callbackStep false createBuf 18 fnC sFail).1.fileWatchDesc = -1 := by
  decide

/-- Claim C2 (amended): if re-registering the file watch fails while
processing a directory-scoped create record for the target filename,
`readEvents` abandons the rest of the batch (early return), but the
monitor does not enter a stopped state: the completion handler
unconditionally re-arms the loop, so the next read is issued. -/
theorem rearm_after_failed_add (r : Rec) (rest fn : List Nat)
    (s : MonState) (hwf : WF r) (hwd : r.wd = s.dirWatchDesc)
    (hne : r.name ≠ []) (hfn : extractName r.name = fn)
    (hm : r.mask = IN_CREATE) (hfail : s.osResults.headD (-1) = -1) :
    callbackStep false (encodeRecord r ++ rest)
        (encodeRecord r ++ rest).length fn s =
      ((addWatchOnFile (rmWatchOnFile (dispatchDir fn r.mask s))).1,
        true) := by
  unfold callbackStep
  rw [if_neg (by simp)]
  unfold readEvents
  rw [readEventsAux_step (encodeRecord r ++ rest)
      (encodeRecord r ++ rest).length fn (encodeRecord r ++ rest).length 0 s
      r rest (by rw [List.drop_zero])
      hwf (by simp [encodeRecord_length]; try omega),
    processRecord_create r fn s hwd hne hfn hm]
  have hp2 : (addWatchOnFile (rmWatchOnFile (dispatchDir fn r.mask s))).2 =
      false :=
    addWatchOnFile_fail_snd _ (by rw [osResults_rm_dispatch]; exact hfail)
  simp [hp2]

/-- Witness for C2's amended theorem at a concrete input. -/
theorem rearm_after_failed_add_witness :
    WF recCreate ∧ recCreate.wd = sFail.dirWatchDesc ∧
    recCreate.name ≠ [] ∧ extractName recCreate.name = fnC ∧
    recCreate.mask = IN_CREATE ∧ sFail.osResults.headD (-1) = -1 ∧
    callbackStep false (encodeRecord recCreate ++ movedFromBuf)
        (encodeRecord recCreate ++ movedFromBuf).length fnC sFail =
      ((addWatchOnFile (rmWatchOnFile
          (dispatchDir fnC recCreate.mask sFail))).1, true) :=
  ⟨by decide, by decide, by decide, by decide, by decide, by decide,
    rearm_after_failed_add recCreate movedFromBuf fnC sFail (by decide)
      (by decide) (by decide) (by decide) (by decide) (by decide)⟩

/-- Claim C10: if re-registering the file watch fails while processing
a create record at any position in the batch, `readEvents` returns at
once: the result does not depend on the remaining bytes `rest`, so none
of the remaining records is dispatched and none causes a watch-set
mutation — the final state is exactly the state after the create
record's own dispatch, the removal of the old watch and the failed
re-registration. -/
theorem failed_rearm_skips_batch (buf : List Nat) (bytes : Nat)
    (fn : List Nat) (index fuel : Nat) (s : MonState) (r : Rec)
    (rest : List Nat)
    (hdrop : buf.drop index = encodeRecord r ++ rest) (hwf : WF r)
    (hbound : index + 16 + r.name.length ≤ bytes)
    (hwd : r.wd = s.dirWatchDesc) (hne : r.name ≠ [])
    (hfn : extractName r.name = fn) (hm : r.mask = IN_CREATE)
    (hfail : s.osResults.headD (-1) = -1) :
    readEventsAux buf bytes fn (fuel + 1) index s =
      (addWatchOnFile (rmWatchOnFile (dispatchDir fn r.mask s))).1 := by
  rw [readEventsAux_step buf bytes fn fuel index s r rest hdrop hwf hbound,
    processRecord_create r fn s hwd hne hfn hm]
  have hp2 : (addWatchOnFile (rmWatchOnFile (dispatchDir fn r.mask s))).2 =
      false :=
    addWatchOnFile_fail_snd _ (by rw [osResults_rm_dispatch]; exact hfail)
  simp [hp2]

/-- Witness for C10: create-with-failed-re-arm followed by a full
moved-from record that would otherwise be processed; the batch is cut
short at the create record. -/
theorem failed_rearm_skips_batch_witness :
    (encodeRecord recCreate ++ movedFromBuf).drop 0 =
      encodeRecord recCreate ++ movedFromBuf ∧
    WF recCreate ∧ 0 + 16 + recCreate.name.length ≤ 36 ∧
    recCreate.wd = sFail.dirWatchDesc ∧ recCreate.name ≠ [] ∧
    extractName recCreate.name = fnC ∧ recCreate.mask = IN_CREATE ∧
    sFail.osResults.headD (-1) = -1 ∧
    readEventsAux (encodeRecord recCreate ++ movedFromBuf) 36 fnC 101 0
        sFail =
      (addWatchOnFile (rmWatchOnFile
        (dispatchDir fnC recCreate.mask sFail))).1 :=
  ⟨by decide, by decide, by decide, by decide, by decide, by decide,
    by decide, by decide,
    failed_rearm_skips_batch (encodeRecord recCreate ++ movedFromBuf) 36
      fnC 0 100 sFail recCreate movedFromBuf (by decide) (by decide)
      (by decide) (by decide) (by decide) (by decide) (by decide)
      (by decide)⟩

/-- A complete directory-scoped record for unrelated file "x":
`wd = 1`, `mask = IN_DELETE`, `len = 2`, name "x\x00". -/
def recDelOther : Rec := ⟨1, 512, 0, [120, 0]⟩

/-- A truncated trailing fragment: full 16-byte header with
`wd = 5` (the live file watch), `mask = IN_MODIFY`, `len = 8`, but
none of the 8 declared name bytes present. -/
def fragFile : List Nat :=
  [5, 0, 0, 0, 2, 0, 0, 0, 0, 0, 0, 0, 8, 0, 0, 0]

/-- One complete record ("x" deleted, not the target) followed by the
truncated file-scoped fragment. -/
def c3buf : List Nat := encodeRecord recDelOther ++ fragFile

/-- Counterexample to claim C3 as stated: a buffer with N = 1 complete
well-formed record followed by a truncated fragment (header's declared
`len = 8` exceeds the 0 remaining bytes).  The complete record is
correctly discarded (name "x" does not match), but the truncated
fragment IS dispatched as a file-scoped event, because the
`index + iEventSize + event.len > bytesTransferred` guard exists only
in the directory branch of `readEvents`. -/
theorem file_fragment_dispatch_cex :
    (readEvents c3buf 34 fnC sLive).events = [SemEvent.fileEvent 2] ∧
    (readEvents c3buf 34 fnC sLive).calls = [] ∧
    (readEvents c3buf 34 fnC sLive).fileWatchDesc = 5 := by
  decide

/-- Claim C3 (amended): for every buffer of N well-formed concatenated
records followed by a truncated trailing fragment (fewer than
header-size bytes, or a declared name length exceeding the remaining
valid bytes), decoding processes exactly the N complete records
(`processAll`), and the fragment is never emitted as a directory-scoped
record; however, a fragment whose full header is present and whose
handle equals the live file watch descriptor is dispatched as a
file-scoped event (`handleFrag`), its absent name bytes unread. -/
theorem codec_truncated_fragment (fn frag stale : List Nat)
    (rs : List Rec) (s : MonState) (hwf : ∀ r ∈ rs, WF r)
    (hfragOK : frag.length < 16 ∨
      (16 ≤ frag.length ∧
        frag.length < 16 + (decodeHeader (frag ++ stale)).2.2)) :
    readEvents (encodeList rs ++ (frag ++ stale))
        ((encodeList rs).length + frag.length) fn s =
      (let p := processAll fn rs s
       if p.2 then
         handleFrag (decide (16 ≤ frag.length))
           (decodeHeader (frag ++ stale)) p.1
       else p.1) :=
  readEvents_decomposition fn frag stale rs s hwf hfragOK

/-- Witness for C3's amended theorem at a concrete batch. -/
theorem codec_truncated_fragment_witness :
    (∀ r ∈ [recDelOther], WF r) ∧
    (fragFile.length < 16 ∨
      (16 ≤ fragFile.length ∧
        fragFile.length < 16 + (decodeHeader (fragFile ++ [])).2.2)) ∧
    readEvents (encodeList [recDelOther] ++ (fragFile ++ []))
        ((encodeList [recDelOther]).length + fragFile.length) fnC sLive =
      (let p := processAll fnC [recDelOther] sLive
       if p.2 then
         handleFrag (decide (16 ≤ fragFile.length))
           (decodeHeader (fragFile ++ [])) p.1
       else p.1) :=
  ⟨by decide, by decide,
    codec_truncated_fragment fnC fragFile [] [recDelOther] sLive
      (by decide) (by decide)⟩

/-- Header of the record used by the C4 counterexample: `wd = 1`,
`mask = IN_ATTRIB`, `len = 4`. -/
def c4hdr : List Nat :=
  [1, 0, 0, 0, 4, 0, 0, 0, 0, 0, 0, 0, 4, 0, 0, 0]

/-- The 4-byte name field "ftxt" with no NUL inside it. -/
def c4field : List Nat := [102, 116, 120, 116]

/-- What the code actually extracts from `c4buf1`: "ftxtZ" — one byte
more than the 4-byte field. -/
def c4fn : List Nat := [102, 116, 120, 116, 90]

/-- Record plus stale bytes "Z\x00" after the valid length. -/
def c4buf1 : List Nat := c4hdr ++ c4field ++ [90, 0]

/-- Same valid bytes, different stale bytes "Q\x00". -/
def c4buf2 : List Nat := c4hdr ++ c4field ++ [81, 0]

/-- Counterexample to claim C4 as stated: the two buffers agree on all
20 valid bytes (`bytesTransferred = 20`) and differ only in the stale
bytes beyond the valid length, yet `readEvents` produces different
results: on `c4buf1` the extracted name is "ftxtZ" (5 bytes from a
4-byte field, the fifth read beyond the valid length) and the record is
dispatched, on `c4buf2` it is not.  The spec-mandated name (truncated
at `len`) would be "ftxt" in both. -/
theorem name_overrun_cex :
    c4buf1.take 20 = c4buf2.take 20 ∧
    readEvents c4buf1 20 c4fn sLive ≠ readEvents c4buf2 20 c4fn sLive ∧
    (readEvents c4buf1 20 c4fn sLive).events =
      [SemEvent.dirEvent c4fn 4] ∧
    (readEvents c4buf2 20 c4fn sLive).events = [] ∧
    specName 4 (c4field ++ [90, 0]) = [102, 116, 120, 116] := by
  decide

/-- Claim C4 (amended): the name is extracted by reading from the start
of the name field to the first NUL byte of the backing buffer, with no
truncation at `len`; whenever the name field does contain a NUL within
its `len` bytes (as the real kernel guarantees), the extracted name
equals the spec's null-terminated name truncated at `len` bytes and is
read only from the field's bytes. -/
theorem name_extraction_terminated (len : Nat) (field rest : List Nat)
    (hlen : field.length = len) (hnul : (0 : Nat) ∈ field) :
    extractName (field ++ rest) = specName len (field ++ rest) ∧
    extractName (field ++ rest) = extractName field := by
  have h1 : extractName (field ++ rest) = extractName field :=
    extractName_append hnul
  refine ⟨?_, h1⟩
  rw [h1]
  unfold specName extractName
  rw [← hlen, List.take_left]

/-- Witness for C4's amended theorem. -/
theorem name_extraction_terminated_witness :
    ([102, 0] : List Nat).length = 2 ∧ (0 : Nat) ∈ ([102, 0] : List Nat) ∧
    (extractName ([102, 0] ++ [99]) = specName 2 ([102, 0] ++ [99]) ∧
      extractName ([102, 0] ++ [99]) = extractName [102, 0]) :=
  ⟨by decide, by decide,
    name_extraction_terminated 2 [102, 0] [99] (by decide) (by decide)⟩

/-- Claim C6: a complete directory-scoped record whose name differs
from the target filename is silently discarded: no event is dispatched,
no watch-set mutation happens (the state passed on is unchanged), and
the cursor still advances past the record by `headerSize + len`. -/
theorem nonmatching_record_noop (buf : List Nat) (bytes : Nat)
    (fn : List Nat) (index fuel : Nat) (s : MonState) (r : Rec)
    (rest : List Nat)
    (hdrop : buf.drop index = encodeRecord r ++ rest) (hwf : WF r)
    (hbound : index + 16 + r.name.length ≤ bytes)
    (hwd : r.wd = s.dirWatchDesc)
    (hfn : extractName r.name ≠ fn) :
    readEventsAux buf bytes fn (fuel + 1) index s =
      readEventsAux buf bytes fn fuel (index + (16 + r.name.length)) s := by
  rw [readEventsAux_step buf bytes fn fuel index s r rest hdrop hwf hbound]
  simp only [processRecord]
  rw [if_pos hwd]
  by_cases hlen : r.name.length = 0
  · rw [if_pos hlen]
    simp
  · rw [if_neg hlen, if_pos hfn]
    simp

/-- Witness for C6 at a concrete non-matching delete record. -/
theorem nonmatching_record_noop_witness :
    (encodeRecord recDelOther ++ []).drop 0 =
      encodeRecord recDelOther ++ [] ∧
    WF recDelOther ∧ 0 + 16 + recDelOther.name.length ≤ 18 ∧
    recDelOther.wd = sLive.dirWatchDesc ∧
    extractName recDelOther.name ≠ fnC ∧
    readEventsAux (encodeRecord recDelOther ++ []) 18 fnC 3 0 sLive =
      readEventsAux (encodeRecord recDelOther ++ []) 18 fnC 2
        (0 + (16 + recDelOther.name.length)) sLive :=
  ⟨by decide, by decide, by decide, by decide, by decide,
    nonmatching_record_noop _ 18 fnC 0 2 sLive recDelOther [] (by decide)
      (by decide) (by decide) (by decide) (by decide)⟩

/-! ## Watch-removal helper lemmas -/

lemma rmWatchOnFile_absent (s : MonState) (h : s.fileWatchDesc = -1) :
    rmWatchOnFile s = s := by
  unfold rmWatchOnFile
  rw [if_neg (not_not_intro h)]

lemma rmWatchOnDir_absent (s : MonState) (h : s.dirWatchDesc = -1) :
    rmWatchOnDir s = s := by
  unfold rmWatchOnDir
  rw [if_neg (not_not_intro h)]

/-- Claim C5: processing a directory-scoped create record for the
target filename (with the re-registration succeeding, the failure case
being claims C2/C10) always results in exactly one live file watch:
the kernel's file registration set afterwards is exactly the new
handle, whether or not a file watch existed before; the syscall trace
shows the old handle, if present, removed before the new one is added;
and the at-most-one-live-handle invariant I1 is preserved. -/
theorem create_single_file_watch (r : Rec) (fn : List Nat) (s : MonState)
    (hwf : WF r) (hwd : r.wd = s.dirWatchDesc) (hne : r.name ≠ [])
    (hfn : extractName r.name = fn) (hm : r.mask = IN_CREATE)
    (hok : s.osResults.headD (-1) ≠ -1) (hinv : WatchInv s) :
    (readEvents (encodeRecord r) (16 + r.name.length) fn s).fileRegs =
      [s.osResults.headD (-1)] ∧
    (readEvents (encodeRecord r) (16 + r.name.length) fn s).fileWatchDesc =
      s.osResults.headD (-1) ∧
    (readEvents (encodeRecord r) (16 + r.name.length) fn s).dirRegs =
      s.dirRegs ∧
    (readEvents (encodeRecord r) (16 + r.name.length) fn s).calls =
      s.calls ++
        (if s.fileWatchDesc = -1 then []
         else [OsCall.rmWatch s.fileWatchDesc]) ++
        [OsCall.addWatch WPath.file (s.osResults.headD (-1))] ∧
    WatchInv (readEvents (encodeRecord r) (16 + r.name.length) fn s) := by
  have hstep : readEvents (encodeRecord r) (16 + r.name.length) fn s =
      (addWatchOnFile (rmWatchOnFile (dispatchDir fn r.mask s))).1 := by
    unfold readEvents
    rw [readEventsAux_step (encodeRecord r) (16 + r.name.length) fn
        (16 + r.name.length) 0 s r [] (by simp) hwf (by omega),
      processRecord_create r fn s hwd hne hfn hm]
    have hp2 : (addWatchOnFile
        (rmWatchOnFile (dispatchDir fn r.mask s))).2 = true :=
      addWatchOnFile_ok_snd _ (by rw [osResults_rm_dispatch]; exact hok)
    simp only [hp2, if_pos]
    apply readEventsAux_stop
    omega
  obtain ⟨hi1, hi2, hi3, hi4⟩ := hinv
  rw [hstep]
  have hok2 : s.osResults.head?.getD (-1) ≠ -1 := by
    rw [← List.headD_eq_head?]
    exact hok
  by_cases hfd : s.fileWatchDesc = -1
  · rw [rmWatchOnFile_absent _ (by simpa [dispatchDir] using hfd)]
    unfold addWatchOnFile dispatchDir WatchInv
    simp [hfd, hi1 hfd, hok2, hi3, hi4]
    exact ⟨hi3, hi4⟩
  · have hregs : s.fileRegs = [s.fileWatchDesc] := hi2 hfd
    unfold addWatchOnFile rmWatchOnFile dispatchDir WatchInv
    simp [hfd, hregs, hok2, hi3, hi4]
    exact ⟨hi3, hi4⟩

/-- Witness for C5: duplicate create while a file watch (handle 5) is
live; the oracle hands out handle 7. -/
theorem create_single_file_watch_witness :
    WF recCreate ∧ recCreate.wd = sOk.dirWatchDesc ∧
    recCreate.name ≠ [] ∧ extractName recCreate.name = fnC ∧
    recCreate.mask = IN_CREATE ∧ sOk.osResults.headD (-1) ≠ -1 ∧
    WatchInv sOk ∧
    (readEvents (encodeRecord recCreate) (16 + recCreate.name.length) fnC
      sOk).fileRegs = [7] ∧
    (readEvents (encodeRecord recCreate) (16 + recCreate.name.length) fnC
      sOk).calls =
      [OsCall.rmWatch 5, OsCall.addWatch WPath.file 7] := by
  refine ⟨by decide, by decide, by decide, by decide, by decide, by decide,
    by decide, ?_, ?_⟩
  · exact (create_single_file_watch recCreate fnC sOk (by decide)
      (by decide) (by decide) (by decide) (by decide) (by decide)
      (by decide)).1
  · have h := (create_single_file_watch recCreate fnC sOk (by decide)
      (by decide) (by decide) (by decide) (by decide) (by decide)
      (by decide)).2.2.2.1
    simpa using h

/-- Claim C7: construction fails — never Running, no read ever issued —
when the directory watch cannot be registered; whereas a failed file
watch registration at construction is non-fatal: the monitor reaches
Running, issues its first read, and only the directory watch is live. -/
theorem construction_failure_modes (fd dirRes : Int)
    (rest1 rest2 : List Int) (hfd : fd ≠ -1) (hdir : dirRes ≠ -1) :
    ((constructMonitor fd ((-1) :: rest1)).running = false ∧
     (constructMonitor fd ((-1) :: rest1)).readsIssued = 0 ∧
     (constructMonitor fd ((-1) :: rest1)).state.dirWatchDesc = -1 ∧
     (constructMonitor fd ((-1) :: rest1)).state.dirRegs = [] ∧
     (constructMonitor fd ((-1) :: rest1)).state.fileWatchDesc = -1 ∧
     (constructMonitor fd ((-1) :: rest1)).state.calls =
       [OsCall.addWatch WPath.parentDir (-1)]) ∧
    ((constructMonitor fd (dirRes :: (-1) :: rest2)).running = true ∧
     (constructMonitor fd (dirRes :: (-1) :: rest2)).readsIssued = 1 ∧
     (constructMonitor fd (dirRes :: (-1) :: rest2)).state.dirWatchDesc =
       dirRes ∧
     (constructMonitor fd (dirRes :: (-1) :: rest2)).state.dirRegs =
       [dirRes] ∧
     (constructMonitor fd (dirRes :: (-1) :: rest2)).state.fileWatchDesc =
       -1 ∧
     (constructMonitor fd (dirRes :: (-1) :: rest2)).state.fileRegs =
       []) := by
  unfold constructMonitor addWatchOnDir addWatchOnFile
  simp [hfd, hdir]

/-- Witness for C7 at `fd = 3`, directory handle 1. -/
theorem construction_failure_modes_witness :
    (3 : Int) ≠ -1 ∧ (1 : Int) ≠ -1 ∧
    (constructMonitor 3 [-1]).running = false ∧
    (constructMonitor 3 [-1]).readsIssued = 0 ∧
    (constructMonitor 3 [1, -1]).running = true ∧
    (constructMonitor 3 [1, -1]).state.fileWatchDesc = -1 :=
  ⟨by decide, by decide,
    (construction_failure_modes 3 1 [] [] (by decide) (by decide)).1.1,
    (construction_failure_modes 3 1 [] [] (by decide) (by decide)).1.2.1,
    (construction_failure_modes 3 1 [] [] (by decide) (by decide)).2.1,
    (construction_failure_modes 3 1 [] [] (by decide)
      (by decide)).2.2.2.2.2.1⟩

/-- Claim C8: removing a watch is idempotent and removing an absent
watch (sentinel `-1`) performs no deregistration call and leaves the
state unchanged; consequently teardown deregisters each live handle
exactly once — the destructor's syscall trace contains `rmWatch` for
the directory handle iff it was live, then for the file handle iff it
was live, and nothing else. -/
theorem remove_idempotent_teardown (s : MonState) :
    rmWatchOnFile (rmWatchOnFile s) = rmWatchOnFile s ∧
    rmWatchOnDir (rmWatchOnDir s) = rmWatchOnDir s ∧
    (s.fileWatchDesc = -1 → rmWatchOnFile s = s) ∧
    (s.dirWatchDesc = -1 → rmWatchOnDir s = s) ∧
    (destructMonitor s).calls =
      s.calls ++
        (if s.dirWatchDesc = -1 then []
         else [OsCall.rmWatch s.dirWatchDesc]) ++
        (if s.fileWatchDesc = -1 then []
         else [OsCall.rmWatch s.fileWatchDesc]) := by
  refine ⟨?_, ?_, rmWatchOnFile_absent s, rmWatchOnDir_absent s, ?_⟩
  · by_cases h : s.fileWatchDesc = -1
    · rw [rmWatchOnFile_absent s h, rmWatchOnFile_absent s h]
    · apply rmWatchOnFile_absent
      unfold rmWatchOnFile
      rw [if_pos h]
  · by_cases h : s.dirWatchDesc = -1
    · rw [rmWatchOnDir_absent s h, rmWatchOnDir_absent s h]
    · apply rmWatchOnDir_absent
      unfold rmWatchOnDir
      rw [if_pos h]
  · unfold destructMonitor
    by_cases hd : s.dirWatchDesc = -1 <;>
      by_cases hf : s.fileWatchDesc = -1 <;>
      unfold rmWatchOnDir rmWatchOnFile <;>
      simp [hd, hf]

/-- Fresh monitor state with both handles absent. -/
def sEmpty : MonState := ⟨-1, -1, -1, [], [], [], [], []⟩

/-- Witness for C8: no-op removal on an absent handle, and the teardown
trace with both handles live. -/
theorem remove_idempotent_teardown_witness :
    rmWatchOnFile sEmpty = sEmpty ∧
    (destructMonitor sLive).calls =
      [OsCall.rmWatch 1, OsCall.rmWatch 5] := by
  refine ⟨(remove_idempotent_teardown sEmpty).2.2.1 rfl, ?_⟩
  have h := (remove_idempotent_teardown sLive).2.2.2.2
  simpa using h
